import Mathlib

open scoped List

/-!
Verification of the filter-and-aggregate pipeline of the NBA dashboard
(`src/app.py`).  The dataset is a sequence of rows with columns
`bbrID, Tm, Year, PTS, AST, TRB, GmSc, Playoffs`; the callbacks
`update_dashboard` (lines 94–158) and `show_player_details`
(lines 178–205) filter the dataset by team / year / game type and
derive aggregate views and a detail record.  Numeric columns are
modelled by `ℚ`, pandas row order by `List`.
-/

namespace NBA

/-- One row of the dataframe `df`, with the schema of the CSV:
columns `bbrID, Tm, Year, PTS, AST, TRB, GmSc, Playoffs`
(`Playoffs` is coerced to `Bool` at load time by the
fillna-False normalization of the Playoffs column, line 8). -/
structure Record where
  bbrID : String
  Tm : String
  Year : Int
  PTS : ℚ
  AST : ℚ
  TRB : ℚ
  GmSc : ℚ
  Playoffs : Bool
deriving DecidableEq

/-- The filter state passed to both callbacks: `selected_teams` and
`selected_years` come from multi-dropdowns whose value is `None` or a
list (Python truthiness conflates `None` and `[]`, so both are modelled
by the empty list), `game_type` is a string tag. -/
structure FilterSpec where
  selected_teams : List String
  selected_years : List Int
  game_type : String

/-- Lines 96–97 / 183–184: when `selected_teams` is truthy, keep the
rows whose `Tm` is in it; `None` and the empty list skip the step. -/
def teamStep (s : FilterSpec) (df : List Record) : List Record :=
  if s.selected_teams.isEmpty then df
  else df.filter (fun r => s.selected_teams.contains r.Tm)

/-- Lines 98–99 / 185–186: when `selected_years` is truthy, keep the
rows whose `Year` is in it; `None` and the empty list skip the step. -/
def yearStep (s : FilterSpec) (df : List Record) : List Record :=
  if s.selected_years.isEmpty then df
  else df.filter (fun r => s.selected_years.contains r.Year)

/-- Lines 100–103 / 187–190: the tag `regular` keeps the rows whose
`Playoffs` is false, the tag `playoffs` keeps the rows whose
`Playoffs` is true, and any other tag leaves the frame unchanged. -/
def typeStep (s : FilterSpec) (df : List Record) : List Record :=
  if s.game_type = "regular" then df.filter (fun r => r.Playoffs == false)
  else if s.game_type = "playoffs" then df.filter (fun r => r.Playoffs == true)
  else df

/-- The full computation of `filtered_df` (lines 94–103, repeated
verbatim at lines 182–190): team step, then year step, then
game-type step. -/
def applyFilters (s : FilterSpec) (df : List Record) : List Record :=
  typeStep s (yearStep s (teamStep s df))

/-- Lexicographic comparison of character lists by code point, the
order in which pandas enumerates string group keys. -/
def charsLe : List Char → List Char → Bool
  | [], _ => true
  | _ :: _, [] => false
  | x :: xs, y :: ys =>
    if x.toNat < y.toNat then true
    else if y.toNat < x.toNat then false
    else charsLe xs ys

/-- Lexicographic order on strings, as a `Prop`-valued relation. -/
def strLeR (a b : String) : Prop := charsLe a.data b.data = true

instance : DecidableRel strLeR :=
  fun a b => inferInstanceAs (Decidable (charsLe a.data b.data = true))

/-- One aggregated output row of `groupby(...)[["PTS","AST","TRB","GmSc"]].mean()`
after `reset_index()`: the group key and the four column means. -/
structure AggRow where
  key : String
  PTS : ℚ
  AST : ℚ
  TRB : ℚ
  GmSc : ℚ
deriving DecidableEq

/-- Arithmetic mean of a list of rationals (pandas `mean()` per group). -/
def listMean (xs : List ℚ) : ℚ := xs.sum / xs.length

/-- The rows of one group: the sub-dataframe with the given key,
in original row order (pandas keeps within-group order). -/
def groupRows (key : Record → String) (df : List Record) (k : String) : List Record :=
  df.filter (fun r => key r == k)

/-- The aggregated row of one group. -/
def aggRow (key : Record → String) (df : List Record) (k : String) : AggRow :=
  { key := k
    PTS := listMean ((groupRows key df k).map Record.PTS)
    AST := listMean ((groupRows key df k).map Record.AST)
    TRB := listMean ((groupRows key df k).map Record.TRB)
    GmSc := listMean ((groupRows key df k).map Record.GmSc) }

/-- The distinct group keys in ascending order: pandas `groupby` uses
`sort=True`, so groups are enumerated by sorted key, not by first
encounter. -/
def sortedKeys (key : Record → String) (df : List Record) : List String :=
  List.insertionSort strLeR ((df.map key).dedup)

/-- `df.groupby(key)[["PTS","AST","TRB","GmSc"]].mean()`: one aggregated
row per distinct key, enumerated in sorted key order. -/
def groupMeans (key : Record → String) (df : List Record) : List AggRow :=
  (sortedKeys key df).map (aggRow key df)

/-- Descending order on mean game score, the key of
`sort_values(by="GmSc", ascending=False)` (line 109); the pandas sort
is modelled as a stable sort. -/
def byGmScDesc (a b : AggRow) : Prop := b.GmSc ≤ a.GmSc

instance : DecidableRel byGmScDesc :=
  fun a b => inferInstanceAs (Decidable (b.GmSc ≤ a.GmSc))

instance : IsTotal AggRow byGmScDesc := ⟨fun a b => le_total b.GmSc a.GmSc⟩

instance : IsTrans AggRow byGmScDesc := ⟨fun _ _ _ h1 h2 => le_trans h2 h1⟩

/-- Descending order on mean points, the key of
`sort_values(by="PTS", ascending=False)` (line 150). -/
def byPTSDesc (a b : AggRow) : Prop := b.PTS ≤ a.PTS

instance : DecidableRel byPTSDesc :=
  fun a b => inferInstanceAs (Decidable (b.PTS ≤ a.PTS))

instance : IsTotal AggRow byPTSDesc := ⟨fun a b => le_total b.PTS a.PTS⟩

instance : IsTrans AggRow byPTSDesc := ⟨fun _ _ _ h1 h2 => le_trans h2 h1⟩

/-- Lines 106–112 of `update_dashboard` (tab1): group the filtered
frame by `bbrID`, take column means, sort descending by mean `GmSc`,
keep the first 10 rows. -/
def top_players (df : List Record) : List AggRow :=
  (List.insertionSort byGmScDesc (groupMeans Record.bbrID df)).take 10

/-- Lines 146–151 of `update_dashboard` (tab4): group the filtered
frame by `Tm`, take column means, sort descending by mean `PTS`. -/
def team_stats (df : List Record) : List AggRow :=
  List.insertionSort byPTSDesc (groupMeans Record.Tm df)

/-- Modelled from the spec: the bin of one score among 30 equal-width
bins spanning `lo` to `hi` (scores at the top edge fall in the last
bin); the binning itself is performed by `plotly.express.histogram`,
which is not part of this repository. -/
def binIdx (lo hi x : ℚ) : Nat :=
  min (((x - lo) * 30 / (hi - lo)).floor.toNat) 29

/-- Modelled from the spec: the per-bin counts of the histogram. -/
def binCounts (scores : List ℚ) (lo hi : ℚ) : List Nat :=
  (List.range 30).map
    (fun i => (scores.filter (fun v => binIdx lo hi v == i)).length)

/-- Modelled from the spec: the Score-Distribution view (line 126)
delegates binning to `px.histogram(filtered_df, x="GmSc", nbins=30)`,
whose implementation is not part of this repository; per the spec it
buckets the filtered `GmSc` values into 30 equal-width bins spanning
their observed min and max, returning the bin edges and the per-bin
counts, and returns zero bins and zero counts on empty input without
error. -/
def score_distribution (df : List Record) : List ℚ × List Nat :=
  match df.map Record.GmSc with
  | [] => ([], [])
  | x :: xs =>
    ((List.range 31).map
      (fun i => xs.foldl min x + ((xs.foldl max x - xs.foldl min x) / 30) * i),
     binCounts (x :: xs) (xs.foldl min x) (xs.foldl max x))

/-- A two-row dataset whose two players tie on game score and whose
group-encounter order (`B` first) differs from sorted key order. -/
def dfTie : List Record :=
  [⟨"B", "LAL", 2020, 30, 2, 4, 10, false⟩,
   ⟨"A", "BOS", 2020, 20, 5, 3, 10, false⟩]

/-- Outcome of the `show_player_details` callback, abstracting its
three returns: the empty string for a falsy `player_id`, the
"No data found" message, or a rendered record. -/
inductive DetailResult where
  | noSelection
  | notFound
  | found (r : Record)
deriving DecidableEq

/-- Lines 178–205: `show_player_details` returns `""` when
`player_id` is falsy (`None` or `""`), otherwise filters `df` exactly
as `update_dashboard` does, keeps the rows with
`bbrID == player_id`, returns the no-data message when none remain and
otherwise renders `player_data.iloc[-1]`, the last surviving row. -/
def show_player_details (player_id : Option String) (s : FilterSpec)
    (df : List Record) : DetailResult :=
  match player_id with
  | none => .noSelection
  | some pid =>
    if pid = "" then .noSelection
    else
      let player_data := (applyFilters s df).filter (fun r => r.bbrID == pid)
      match player_data.getLast? with
      | none => .notFound
      | some r => .found r

/-- The Boolean row predicate the three filter steps jointly implement:
an empty team / year selection constrains nothing, and only the tags
`regular` and `playoffs` constrain the playoff flag. -/
def keepRow (s : FilterSpec) (r : Record) : Bool :=
  (s.selected_teams.isEmpty || s.selected_teams.contains r.Tm) &&
  (s.selected_years.isEmpty || s.selected_years.contains r.Year) &&
  (if s.game_type = "regular" then r.Playoffs == false
   else if s.game_type = "playoffs" then r.Playoffs == true
   else true)

end NBA

namespace NBA

theorem teamStep_eq_filter (s : FilterSpec) (df : List Record) :
    teamStep s df =
      df.filter (fun r => s.selected_teams.isEmpty || s.selected_teams.contains r.Tm) := by
  unfold teamStep
  by_cases h : s.selected_teams.isEmpty <;> simp [h]

theorem yearStep_eq_filter (s : FilterSpec) (df : List Record) :
    yearStep s df =
      df.filter (fun r => s.selected_years.isEmpty || s.selected_years.contains r.Year) := by
  unfold yearStep
  by_cases h : s.selected_years.isEmpty <;> simp [h]

theorem typeStep_eq_filter (s : FilterSpec) (df : List Record) :
    typeStep s df =
      df.filter (fun r =>
        if s.game_type = "regular" then r.Playoffs == false
        else if s.game_type = "playoffs" then r.Playoffs == true
        else true) := by
  unfold typeStep
  by_cases hr : s.game_type = "regular" <;>
    by_cases hp : s.game_type = "playoffs" <;> simp [hr, hp]

theorem applyFilters_eq_filter (s : FilterSpec) (df : List Record) :
    applyFilters s df = df.filter (keepRow s) := by
  simp only [applyFilters, teamStep_eq_filter, yearStep_eq_filter,
    typeStep_eq_filter, List.filter_filter]
  apply List.filter_congr
  intro r _
  simp only [keepRow]
  cases s.selected_teams.isEmpty || s.selected_teams.contains r.Tm <;>
    cases s.selected_years.isEmpty || s.selected_years.contains r.Year <;>
    simp

/-- C2: with no team selection, no year selection and game type
`all`, the filter pipeline returns the dataset unchanged, in order. -/
theorem applyFilters_all_eq (s : FilterSpec) (df : List Record)
    (ht : s.selected_teams = []) (hy : s.selected_years = [])
    (hg : s.game_type = "all") :
    applyFilters s df = df := by
  simp [applyFilters, teamStep, yearStep, typeStep, ht, hy, hg]

/-- Witness for `applyFilters_all_eq` at a concrete spec and dataset. -/
theorem applyFilters_all_eq_witness :
    (FilterSpec.mk [] [] "all").selected_teams = [] ∧
    (FilterSpec.mk [] [] "all").selected_years = [] ∧
    (FilterSpec.mk [] [] "all").game_type = "all" ∧
    applyFilters (FilterSpec.mk [] [] "all")
      [⟨"A", "BOS", 2020, 20, 5, 3, 18, false⟩] =
      [⟨"A", "BOS", 2020, 20, 5, 3, 18, false⟩] :=
  ⟨rfl, rfl, rfl,
    applyFilters_all_eq (FilterSpec.mk [] [] "all") _ rfl rfl rfl⟩

/-- C10: any game-type tag other than `regular` and `playoffs` leaves
every record in place: the game-type step is the identity. -/
theorem typeStep_other_eq (s : FilterSpec) (df : List Record)
    (hr : s.game_type ≠ "regular") (hp : s.game_type ≠ "playoffs") :
    typeStep s df = df := by
  simp [typeStep, hr, hp]

/-- Witness for `typeStep_other_eq` with the unrecognized tag
`preseason` on a dataset containing both playoff and regular rows. -/
theorem typeStep_other_eq_witness :
    (FilterSpec.mk [] [] "preseason").game_type ≠ "regular" ∧
    (FilterSpec.mk [] [] "preseason").game_type ≠ "playoffs" ∧
    typeStep (FilterSpec.mk [] [] "preseason")
      [⟨"A", "BOS", 2020, 20, 5, 3, 18, false⟩,
       ⟨"B", "LAL", 2020, 30, 2, 4, 25, true⟩] =
      [⟨"A", "BOS", 2020, 20, 5, 3, 18, false⟩,
       ⟨"B", "LAL", 2020, 30, 2, 4, 25, true⟩] :=
  ⟨by decide, by decide,
    typeStep_other_eq (FilterSpec.mk [] [] "preseason") _
      (by decide) (by decide)⟩

/-- C9: a missing (`None`) or empty-string `player_id` short-circuits
`show_player_details` to the empty result, for every dataset and
filter spec — even one whose records carry the empty `bbrID`. -/
theorem show_player_details_falsy (s : FilterSpec) (df : List Record) :
    show_player_details none s df = .noSelection ∧
    show_player_details (some "") s df = .noSelection := by
  constructor
  · rfl
  · simp [show_player_details]

/-- C1: every record surviving the filter pipeline satisfies each
active constraint: team membership when a team selection is present,
year membership when a year selection is present, and the playoff
flag forced by the tags `regular` and `playoffs`. -/
theorem mem_applyFilters_satisfies (s : FilterSpec) (df : List Record)
    (r : Record) (h : r ∈ applyFilters s df) :
    (s.selected_teams ≠ [] → r.Tm ∈ s.selected_teams) ∧
    (s.selected_years ≠ [] → r.Year ∈ s.selected_years) ∧
    (s.game_type = "regular" → r.Playoffs = false) ∧
    (s.game_type = "playoffs" → r.Playoffs = true) := by
  rw [applyFilters_eq_filter] at h
  have hk := List.of_mem_filter h
  simp only [keepRow, Bool.and_eq_true, Bool.or_eq_true,
    List.isEmpty_iff, List.contains_eq_any_beq, List.any_eq_true,
    beq_iff_eq] at hk
  obtain ⟨⟨hteam, hyear⟩, htype⟩ := hk
  refine ⟨?_, ?_, ?_, ?_⟩
  · intro hne
    rcases hteam with h1 | ⟨t, ht, rfl⟩
    · exact absurd h1 hne
    · exact ht
  · intro hne
    rcases hyear with h1 | ⟨y, hy, rfl⟩
    · exact absurd h1 hne
    · exact hy
  · intro hg
    rw [if_pos hg] at htype
    simpa using htype
  · intro hg
    have hgr : s.game_type ≠ "regular" := by rw [hg]; decide
    rw [if_neg hgr, if_pos hg] at htype
    simpa using htype

/-- Witness for `mem_applyFilters_satisfies`: a fully active filter
spec and a surviving record. -/
theorem mem_applyFilters_satisfies_witness :
    (⟨"A", "BOS", 2020, 20, 5, 3, 18, false⟩ : Record) ∈
      applyFilters (FilterSpec.mk ["BOS"] [2020] "regular")
        ([⟨"A", "BOS", 2020, 20, 5, 3, 18, false⟩,
          ⟨"B", "LAL", 2021, 30, 2, 4, 25, true⟩] : List Record) ∧
    ((FilterSpec.mk ["BOS"] [2020] "regular").selected_teams ≠ [] →
      (⟨"A", "BOS", 2020, 20, 5, 3, 18, false⟩ : Record).Tm ∈
        (FilterSpec.mk ["BOS"] [2020] "regular").selected_teams) ∧
    ((FilterSpec.mk ["BOS"] [2020] "regular").selected_years ≠ [] →
      (⟨"A", "BOS", 2020, 20, 5, 3, 18, false⟩ : Record).Year ∈
        (FilterSpec.mk ["BOS"] [2020] "regular").selected_years) ∧
    ((FilterSpec.mk ["BOS"] [2020] "regular").game_type = "regular" →
      (⟨"A", "BOS", 2020, 20, 5, 3, 18, false⟩ : Record).Playoffs = false) ∧
    ((FilterSpec.mk ["BOS"] [2020] "regular").game_type = "playoffs" →
      (⟨"A", "BOS", 2020, 20, 5, 3, 18, false⟩ : Record).Playoffs = true) :=
  ⟨by decide,
    mem_applyFilters_satisfies (FilterSpec.mk ["BOS"] [2020] "regular")
      [⟨"A", "BOS", 2020, 20, 5, 3, 18, false⟩,
       ⟨"B", "LAL", 2021, 30, 2, 4, 25, true⟩]
      ⟨"A", "BOS", 2020, 20, 5, 3, 18, false⟩
      (by decide)⟩

/-- C8: the three filter steps commute pairwise, and their composite
is a single `filter` by the conjunction `keepRow` of the three row
predicates. -/
theorem filterSteps_commute (s : FilterSpec) (df : List Record) :
    teamStep s (yearStep s df) = yearStep s (teamStep s df) ∧
    teamStep s (typeStep s df) = typeStep s (teamStep s df) ∧
    yearStep s (typeStep s df) = typeStep s (yearStep s df) ∧
    applyFilters s df = df.filter (keepRow s) := by
  refine ⟨?_, ?_, ?_, applyFilters_eq_filter s df⟩ <;>
  · simp only [teamStep_eq_filter, yearStep_eq_filter, typeStep_eq_filter,
      List.filter_filter]
    congr 1
    funext r
    exact Bool.and_comm _ _

/-- C3: for a non-empty `player_id`, `show_player_details` reports
"no data" exactly when no record of the filtered dataset carries that
id, and otherwise renders the last matching record of the filtered
sequence, taken in original sequence order. -/
theorem show_player_details_last (s : FilterSpec) (df : List Record)
    (pid : String) (hpid : pid ≠ "") :
    (show_player_details (some pid) s df = .notFound ↔
      (applyFilters s df).filter (fun r => r.bbrID == pid) = []) ∧
    (∀ r, ((applyFilters s df).filter (fun r => r.bbrID == pid)).getLast? = some r →
      show_player_details (some pid) s df = .found r) := by
  have hred : show_player_details (some pid) s df =
      match ((applyFilters s df).filter (fun r => r.bbrID == pid)).getLast? with
      | none => .notFound
      | some r => .found r := by
    simp [show_player_details, hpid]
  rcases hL : ((applyFilters s df).filter (fun r => r.bbrID == pid)).getLast?
    with _ | r0
  · rw [hL] at hred
    refine ⟨?_, ?_⟩
    · rw [hred]
      simpa using List.getLast?_eq_none_iff.mp hL
    · intro r hr
      rw [hL] at hr
      exact absurd hr (by simp)
  · rw [hL] at hred
    refine ⟨?_, ?_⟩
    · rw [hred]
      constructor
      · intro hcon
        exact absurd hcon (by simp)
      · intro hnil
        rw [hnil] at hL
        exact absurd hL (by simp)
    · intro r hr
      rw [hL] at hr
      obtain rfl : r0 = r := by simpa using hr
      exact hred

/-- Witness for `show_player_details_last`: player `A` looked up with
an empty filter spec over a two-row dataset. -/
theorem show_player_details_last_witness :
    ("A" : String) ≠ "" ∧
    ((show_player_details (some "A") (FilterSpec.mk [] [] "all")
        [⟨"A", "BOS", 2020, 20, 5, 3, 18, false⟩,
         ⟨"A", "LAL", 2021, 30, 2, 4, 25, true⟩] = .notFound ↔
      (applyFilters (FilterSpec.mk [] [] "all")
        [⟨"A", "BOS", 2020, 20, 5, 3, 18, false⟩,
         ⟨"A", "LAL", 2021, 30, 2, 4, 25, true⟩]).filter
          (fun r => r.bbrID == "A") = []) ∧
    (∀ r, ((applyFilters (FilterSpec.mk [] [] "all")
        [⟨"A", "BOS", 2020, 20, 5, 3, 18, false⟩,
         ⟨"A", "LAL", 2021, 30, 2, 4, 25, true⟩]).filter
          (fun r => r.bbrID == "A")).getLast? = some r →
      show_player_details (some "A") (FilterSpec.mk [] [] "all")
        [⟨"A", "BOS", 2020, 20, 5, 3, 18, false⟩,
         ⟨"A", "LAL", 2021, 30, 2, 4, 25, true⟩] = .found r)) :=
  ⟨by decide,
    show_player_details_last (FilterSpec.mk [] [] "all") _ "A" (by decide)⟩

theorem charsLe_cons {x y : Char} {xs ys : List Char} :
    charsLe (x :: xs) (y :: ys) = true ↔
      x.toNat < y.toNat ∨ (x.toNat = y.toNat ∧ charsLe xs ys = true) := by
  simp only [charsLe]
  split_ifs with h1 h2
  · simp [h1]
  · simp only [Bool.false_eq_true, false_iff]
    rintro (h | ⟨h, -⟩) <;> omega
  · have h3 : x.toNat = y.toNat := by omega
    simp [h1, h3]

theorem charsLe_total : ∀ a b, charsLe a b = true ∨ charsLe b a = true
  | [], _ => .inl rfl
  | _ :: _, [] => .inr rfl
  | x :: xs, y :: ys => by
    rcases Nat.lt_trichotomy x.toNat y.toNat with h | h | h
    · exact .inl (charsLe_cons.mpr (.inl h))
    · rcases charsLe_total xs ys with ih | ih
      · exact .inl (charsLe_cons.mpr (.inr ⟨h, ih⟩))
      · exact .inr (charsLe_cons.mpr (.inr ⟨h.symm, ih⟩))
    · exact .inr (charsLe_cons.mpr (.inl h))

theorem charsLe_trans :
    ∀ a b c, charsLe a b = true → charsLe b c = true → charsLe a c = true
  | [], _, _, _, _ => rfl
  | _ :: _, [], _, h1, _ => by simp [charsLe] at h1
  | _ :: _, _ :: _, [], _, h2 => by simp [charsLe] at h2
  | x :: xs, y :: ys, z :: zs, h1, h2 => by
    rcases charsLe_cons.mp h1 with h | ⟨h, hxs⟩ <;>
      rcases charsLe_cons.mp h2 with h' | ⟨h', hys⟩
    · exact charsLe_cons.mpr (.inl (by omega))
    · exact charsLe_cons.mpr (.inl (by omega))
    · exact charsLe_cons.mpr (.inl (by omega))
    · exact charsLe_cons.mpr (.inr ⟨by omega, charsLe_trans xs ys zs hxs hys⟩)

instance : IsTotal String strLeR := ⟨fun a b => charsLe_total a.data b.data⟩

instance : IsTrans String strLeR := ⟨fun a b c => charsLe_trans a.data b.data c.data⟩

theorem aggRow_key (key : Record → String) (df : List Record) (k : String) :
    (aggRow key df k).key = k := rfl

/-- C4: the Top-Performers view has one row per distinct `bbrID` of the
filtered frame, capped at 10, and is sorted non-increasing by mean
game score. -/
theorem top_players_spec (s : FilterSpec) (df : List Record) :
    (top_players (applyFilters s df)).length =
      min 10 (((applyFilters s df).map Record.bbrID).dedup.length) ∧
    (top_players (applyFilters s df)).Pairwise (fun a b => b.GmSc ≤ a.GmSc) := by
  constructor
  · simp [top_players, groupMeans, sortedKeys, List.length_take,
      List.length_insertionSort, List.length_map]
  · exact List.Pairwise.sublist (List.take_sublist _ _)
      ((List.sorted_insertionSort byGmScDesc _).imp (fun h => h))

/-- C7: the Team-Overview view is sorted non-increasing by mean points,
and its keys are exactly the distinct teams of the filtered frame. -/
theorem team_stats_spec (s : FilterSpec) (df : List Record) :
    (team_stats (applyFilters s df)).Pairwise (fun a b => b.PTS ≤ a.PTS) ∧
    ∀ t, (t ∈ (team_stats (applyFilters s df)).map AggRow.key ↔
      t ∈ (applyFilters s df).map Record.Tm) := by
  constructor
  · exact (List.sorted_insertionSort byPTSDesc _).imp (fun h => h)
  · intro t
    simp [team_stats, groupMeans, sortedKeys, List.mem_map,
      List.mem_insertionSort, List.mem_dedup, aggRow_key]

theorem pair_sublist_or {α : Type u} {l : List α} {a b : α}
    (ha : a ∈ l) (hb : b ∈ l) (hne : a ≠ b) : [a, b] <+ l ∨ [b, a] <+ l := by
  induction l with
  | nil => simp at ha
  | cons x t ih =>
    rcases List.mem_cons.mp ha with rfl | ha'
    · have hb' : b ∈ t := by
        rcases List.mem_cons.mp hb with rfl | h
        · exact absurd rfl hne
        · exact h
      exact .inl (List.Sublist.cons₂ a (List.singleton_sublist.mpr hb'))
    · rcases List.mem_cons.mp hb with rfl | hb'
      · exact .inr (List.Sublist.cons₂ b (List.singleton_sublist.mpr ha'))
      · rcases ih ha' hb' with h | h
        · exact .inl (h.cons x)
        · exact .inr (h.cons x)

theorem not_pair_sublist_both {α : Type u} {l : List α} (hnd : l.Nodup)
    {a b : α} (hne : a ≠ b) (h1 : [a, b] <+ l) (h2 : [b, a] <+ l) : False := by
  induction l with
  | nil => simp at h1
  | cons x t ih =>
    obtain ⟨hx, hnd'⟩ := List.nodup_cons.mp hnd
    cases h1 with
    | cons _ h1' =>
      cases h2 with
      | cons _ h2' => exact ih hnd' h1' h2'
      | cons₂ _ h2' => exact hx (h1'.subset (by simp))
    | cons₂ _ h1' =>
      cases h2 with
      | cons _ h2' => exact hx (h2'.subset (by simp))
      | cons₂ _ h2' => exact hne rfl

theorem top_players_tie_aux (df : List Record) :
    (top_players df).Pairwise
      (fun a b => a.GmSc = b.GmSc → strLeR a.key b.key ∧ a.key ≠ b.key) := by
  have hkeys : (sortedKeys Record.bbrID df).Pairwise
      (fun a b => strLeR a b ∧ a ≠ b) :=
    (List.sorted_insertionSort strLeR _).imp₂ (fun _ _ h1 h2 => ⟨h1, h2⟩)
      ((List.perm_insertionSort strLeR _).nodup_iff.mpr (List.nodup_dedup _))
  have hgrouped : (groupMeans Record.bbrID df).Pairwise
      (fun a b => strLeR a.key b.key ∧ a.key ≠ b.key) := by
    unfold groupMeans
    rw [List.pairwise_map]
    exact hkeys.imp (fun h => h)
  have hgnd : (groupMeans Record.bbrID df).Nodup :=
    hgrouped.imp (fun h heq => h.2 (congrArg AggRow.key heq))
  have hmsnd : (List.insertionSort byGmScDesc (groupMeans Record.bbrID df)).Nodup :=
    (List.perm_insertionSort byGmScDesc _).nodup_iff.mpr hgnd
  apply List.Pairwise.sublist (List.take_sublist _ _)
  rw [List.pairwise_iff_forall_sublist]
  intro a b hab heq
  have hne : a ≠ b := by
    obtain ⟨h1, -⟩ := List.nodup_cons.mp (hab.nodup hmsnd)
    exact fun h => h1 (by simp [h])
  have ha : a ∈ groupMeans Record.bbrID df :=
    (List.perm_insertionSort byGmScDesc _).subset (hab.subset (by simp))
  have hb : b ∈ groupMeans Record.bbrID df :=
    (List.perm_insertionSort byGmScDesc _).subset (hab.subset (by simp))
  rcases pair_sublist_or ha hb hne with h | h
  · exact List.pairwise_iff_forall_sublist.mp hgrouped h
  · have hba : byGmScDesc b a := le_of_eq heq
    have hms2 : [b, a] <+ List.insertionSort byGmScDesc (groupMeans Record.bbrID df) :=
      List.pair_sublist_insertionSort hba h
    exact (not_pair_sublist_both hmsnd hne hab hms2).elim

/-- C5 (amended): two Top-Performers groups with equal mean game score
appear in strictly ascending `bbrID` order (lexicographic by code
point): pandas `groupby` enumerates groups in sorted key order, not in
group-encounter order, and the descending score sort (modelled as a
stable sort) preserves that order on ties, so the output is still
deterministic. -/
theorem top_players_tie_sorted_keys (s : FilterSpec) (df : List Record) :
    (top_players (applyFilters s df)).Pairwise
      (fun a b => a.GmSc = b.GmSc → strLeR a.key b.key ∧ a.key ≠ b.key) :=
  top_players_tie_aux (applyFilters s df)

/-- C5 counterexample: on `dfTie` with no active filters, the groups
are first encountered in the order `B`, `A` and tie on mean game
score, yet the Top-Performers output lists `A` before `B`: ties do not
follow group-encounter order. -/
theorem top_players_tie_counterexample :
    ¬ (top_players (applyFilters (FilterSpec.mk [] [] "all") dfTie)).Pairwise
      (fun a b => a.GmSc = b.GmSc →
        ((applyFilters (FilterSpec.mk [] [] "all") dfTie).map Record.bbrID).indexOf a.key <
          ((applyFilters (FilterSpec.mk [] [] "all") dfTie).map Record.bbrID).indexOf b.key) := by
  intro hcon
  have e1 : applyFilters (FilterSpec.mk [] [] "all") dfTie = dfTie := by
    simp [applyFilters, teamStep, yearStep, typeStep]
  have gA : groupRows Record.bbrID dfTie "A"
      = [⟨"A", "BOS", 2020, 20, 5, 3, 10, false⟩] := by decide
  have gB : groupRows Record.bbrID dfTie "B"
      = [⟨"B", "LAL", 2020, 30, 2, 4, 10, false⟩] := by decide
  have hA : aggRow Record.bbrID dfTie "A" = ⟨"A", 20, 5, 3, 10⟩ := by
    simp only [aggRow, gA]
    norm_num [listMean]
  have hB : aggRow Record.bbrID dfTie "B" = ⟨"B", 30, 2, 4, 10⟩ := by
    simp only [aggRow, gB]
    norm_num [listMean]
  have hk : sortedKeys Record.bbrID dfTie = ["A", "B"] := by decide
  have e2 : top_players dfTie = [⟨"A", 20, 5, 3, 10⟩, ⟨"B", 30, 2, 4, 10⟩] := by
    simp only [top_players, groupMeans, hk, List.map_cons, List.map_nil, hA, hB]
    norm_num [List.insertionSort, List.orderedInsert, byGmScDesc]
  rw [e1, e2] at hcon
  obtain ⟨h1, -⟩ := List.pairwise_cons.mp hcon
  have h2 := h1 ⟨"B", 30, 2, 4, 10⟩ (by simp) rfl
  exact absurd h2 (by decide)

theorem sum_map_add_nat {α : Type u} (l : List α) (f g : α → Nat) :
    (l.map (fun i => f i + g i)).sum = (l.map f).sum + (l.map g).sum := by
  induction l with
  | nil => rfl
  | cons x t ih => simp [ih]; omega

theorem sum_indicator (n k : Nat) (hk : k < n) :
    ((List.range n).map (fun i => if k = i then 1 else 0)).sum = 1 := by
  induction n with
  | zero => omega
  | succ n ih =>
    rw [List.range_succ, List.map_append, List.sum_append]
    rcases Nat.lt_or_ge k n with h | h
    · rw [ih h]
      simp [Nat.ne_of_lt h]
    · have hkn : k = n := by omega
      have h0 : ((List.range n).map (fun i => if k = i then 1 else 0)).sum = 0 := by
        have hmap : (List.range n).map (fun i => if k = i then 1 else 0)
            = (List.range n).map (fun _ => (0 : Nat)) := by
          apply List.map_congr_left
          intro i hi
          have : i < n := List.mem_range.mp hi
          simp [show k ≠ i by omega]
        rw [hmap]
        simp
      rw [h0]
      simp [hkn]

theorem sum_counts {α : Type u} (f : α → Nat) (n : Nat) :
    ∀ xs : List α, (∀ x ∈ xs, f x < n) →
      ((List.range n).map
        (fun i => (xs.filter (fun v => f v == i)).length)).sum = xs.length
  | [], _ => by
    have hmap : (List.range n).map
        (fun i => (([] : List α).filter (fun v => f v == i)).length)
        = (List.range n).map (fun _ => (0 : Nat)) := by simp
    rw [hmap]
    simp
  | x :: xs, hf => by
    have hstep : (List.range n).map
        (fun i => ((x :: xs).filter (fun v => f v == i)).length)
        = (List.range n).map (fun i =>
            (if f x = i then 1 else 0) + (xs.filter (fun v => f v == i)).length) := by
      apply List.map_congr_left
      intro i _
      by_cases h : f x = i
      · simp [List.filter_cons, h, Nat.add_comm]
      · simp [List.filter_cons, h]
    rw [hstep, sum_map_add_nat,
      sum_indicator n (f x) (hf x (by simp)),
      sum_counts f n xs (fun y hy => hf y (by simp [hy]))]
    rw [List.length_cons]
    omega

theorem binCounts_sum (scores : List ℚ) (lo hi : ℚ) :
    (binCounts scores lo hi).sum = scores.length := by
  unfold binCounts
  exact sum_counts _ 30 scores (fun v _ => by simp [binIdx])

/-- C6: the Score-Distribution bin counts sum to the number of
filtered records, and the empty filtered set yields zero bins and
zero counts. -/
theorem score_distribution_spec (s : FilterSpec) (df : List Record) :
    (score_distribution (applyFilters s df)).2.sum = (applyFilters s df).length ∧
    score_distribution [] = ([], []) := by
  refine ⟨?_, rfl⟩
  unfold score_distribution
  rcases hm : (applyFilters s df).map Record.GmSc with _ | ⟨x, xs⟩
  · have hnil : applyFilters s df = [] := by
      simpa using hm
    simp [hnil]
  · have hlen : (x :: xs).length = (applyFilters s df).length := by
      simpa using (congrArg List.length hm).symm
    simpa [binCounts_sum] using hlen

end NBA
